import Mathlib

/-!
Verification of the drone-detection pipeline (`script2.py`):
column resolution by case-insensitive substring match, k-sigma threshold
estimation from the baseline table, optional frequency-band filtering,
instantaneous per-row masking, and rolling-window temporal hysteresis.

Tables are modelled as a declared column-name list together with rows
mapping column names to optional numeric values (`none` models a NaN /
missing cell).  CSV cell values and CLI parameters are modelled as
rationals; the threshold estimator produces real numbers because the
sample standard deviation involves a square root.
-/

/-- A loaded measurement table: declared columns in order, and rows,
each a lookup from column name to an optional numeric value
(`none` models NaN / a missing cell). -/
structure Table (α : Type) where
  cols : List String
  rows : List (String → Option α)

/-- The lowercase character sequence of a string (`s.lower()`). -/
def lowerChars (s : String) : List Char :=
  s.data.map Char.toLower

/-- `startsWith l p` : does `l` start with `p`? -/
def startsWith : List Char → List Char → Bool
  | _, [] => true
  | [], _ :: _ => false
  | c :: cs, d :: ds => c == d && startsWith cs ds

/-- `containsSub l p` : does `p` occur as a contiguous substring of `l`?
Models Python's `p in l` on strings. -/
def containsSub : List Char → List Char → Bool
  | [], p => p.isEmpty
  | c :: cs, p => startsWith (c :: cs) p || containsSub cs p

/-- `buscar_col` (script2.py lines 56-60): return the first declared
column whose lowercased name contains the lowercased keyword; `none`
when no column matches. -/
def buscar_col {α : Type} (df : Table α) (key : String) : Option String :=
  df.cols.find? (fun c => containsSub (lowerChars c) (lowerChars key))

/-- Python truthiness of an optional string (`if freq_data:` etc.):
`None` and the empty string are falsy. -/
def truthy (o : Option String) : Bool :=
  match o with
  | none => false
  | some s => !s.isEmpty

/-- Extract a column of a table as the list of its per-row values
(`df[col]`). -/
def getCol {α : Type} (df : Table α) (c : String) : List (Option α) :=
  df.rows.map (fun r => r c)

/-- Elementwise strict `value > threshold` comparison under NaN
semantics: a comparison involving NaN (`none`) is false. -/
def optGT {α : Type} [LinearOrder α] (v t : Option α) : Bool :=
  match v, t with
  | some a, some b => decide (b < a)
  | _, _ => false

/-- `value >= bound` against a (non-NaN) scalar bound; NaN compares
false. -/
def geScalar {α : Type} [LinearOrder α] (v : Option α) (a : α) : Bool :=
  match v with
  | some x => decide (a ≤ x)
  | none => false

/-- `value <= bound` against a (non-NaN) scalar bound; NaN compares
false. -/
def leScalar {α : Type} [LinearOrder α] (v : Option α) (b : α) : Bool :=
  match v with
  | some x => decide (x ≤ b)
  | none => false

/-- Per-row band membership (script2.py lines 86-88): the filter is
applied only when a frequency column is truthy and both bounds are
configured; otherwise every row passes. -/
def bandRow {α : Type} [LinearOrder α] (r : String → Option α)
    (freqCol : Option String) (fmin fmax : Option α) : Bool :=
  match freqCol, fmin, fmax with
  | some fc, some a, some b =>
      if fc.isEmpty then true else geScalar (r fc) a && leScalar (r fc) b
  | _, _, _ => true

/-- The band mask over all rows (`band_mask`, script2.py lines 86-88). -/
def bandMask {α : Type} [LinearOrder α] (rows : List (String → Option α))
    (freqCol : Option String) (fmin fmax : Option α) : List Bool :=
  rows.map (fun r => bandRow r freqCol fmin fmax)

/-- Per-row instantaneous detection (script2.py lines 91-93):
`pfd > thr_pfd` AND band membership AND, when the power criterion is
enabled (`powCfg = some (col, thr)`), `power > thr_power`. -/
def instantRow {α : Type} [LinearOrder α] (r : String → Option α)
    (pfdCol : String) (thrPfd : Option α) (powCfg : Option (String × Option α))
    (freqCol : Option String) (fmin fmax : Option α) : Bool :=
  (optGT (r pfdCol) thrPfd && bandRow r freqCol fmin fmax) &&
    (match powCfg with
     | none => true
     | some (pc, tp) => optGT (r pc) tp)

/-- The instantaneous mask over all rows (`instant_mask`,
script2.py lines 91-93). -/
def instantMask {α : Type} [LinearOrder α] (rows : List (String → Option α))
    (pfdCol : String) (thrPfd : Option α) (powCfg : Option (String × Option α))
    (freqCol : Option String) (fmin fmax : Option α) : List Bool :=
  rows.map (fun r => instantRow r pfdCol thrPfd powCfg freqCol fmin fmax)

/-- Temporal hysteresis (script2.py lines 96-101).  For `n > 1` the
verdict is `(rolling(n, min_periods=n).sum() >= n).any()`: some index
`i` has a full trailing window of `n` samples (defined only when
`n ≤ i+1`) whose count of true entries reaches `n`.  Otherwise the
verdict is the logical OR of the mask. -/
def dronDetectado (mask : List Bool) (n : Nat) : Bool :=
  if 1 < n then
    (List.range mask.length).any (fun i =>
      decide (n ≤ i + 1) &&
        decide (n ≤ ((mask.take (i + 1)).drop (i + 1 - n)).countP (fun b => b)))
  else
    mask.any (fun b => b)

/-- The numeric (non-NaN) values of a column, in order: pandas
statistics skip NaN cells. -/
def numVals {α : Type} (xs : List (Option α)) : List α :=
  xs.filterMap id

/-- `Series.mean()`: arithmetic mean of the numeric values, NaN (`none`)
when there are no numeric values. -/
def colMean (xs : List (Option ℚ)) : Option ℚ :=
  if (numVals xs).length = 0 then none
  else some ((numVals xs).sum / (numVals xs).length)

/-- `Series.std()` squared: sample variance with `N-1` denominator over
the numeric values, NaN (`none`) when fewer than two numeric values
exist. -/
def colVar (xs : List (Option ℚ)) : Option ℚ :=
  if (numVals xs).length ≤ 1 then none
  else
    some ((((numVals xs).map
        (fun x => (x - (numVals xs).sum / (numVals xs).length) ^ 2)).sum) /
      ((numVals xs).length - 1))

/-- `Series.std()`: sample standard deviation (square root of the
`N-1` variance); NaN (`none`) when undefined. -/
noncomputable def colStd (xs : List (Option ℚ)) : Option ℝ :=
  Option.map (fun q : ℚ => Real.sqrt ((q : ℝ))) (colVar xs)

/-- The k-sigma threshold `mu + k * sigma` (script2.py lines 77-78 and
82-83); NaN (`none`) whenever the standard deviation is undefined, since
NaN propagates through the float arithmetic. -/
noncomputable def thrOf (k : ℚ) (xs : List (Option ℚ)) : Option ℝ :=
  match colMean xs, colStd xs with
  | some mu, some sigma => some ((mu : ℝ) + (k : ℝ) * sigma)
  | _, _ => none

/-- `thr_power` (script2.py lines 80-83): the power threshold is
computed only when a Total Spectrum Power column resolves (truthily) in
both the baseline and the candidate table; `none` means the power
criterion is disabled, `some none` a NaN-valued threshold. -/
noncomputable def thrPowerOf (base cand : Table ℚ) (k : ℚ) : Option (Option ℝ) :=
  if truthy (buscar_col base "Total Spectrum Power") &&
      truthy (buscar_col cand "Total Spectrum Power") then
    some (thrOf k (getCol base ((buscar_col base "Total Spectrum Power").getD "")))
  else none

/-- Modelled from the spec: the arithmetic mean of a list of numeric
values, as stated in the Threshold Estimator contract. -/
noncomputable def specMean (vs : List ℚ) : ℝ :=
  (vs.map (fun x : ℚ => (x : ℝ))).sum / vs.length

/-- Modelled from the spec: the sample standard deviation with `N-1`
denominator, as stated in the Threshold Estimator contract. -/
noncomputable def specSampleStd (vs : List ℚ) : ℝ :=
  Real.sqrt
    ((vs.map (fun x : ℚ => ((x : ℝ) - specMean vs) ^ 2)).sum /
      ((vs.length : ℝ) - 1))

/-- Modelled from the spec: `mu + k * sigma` over the column's numeric
values, as stated in the Threshold Estimator contract. -/
noncomputable def specThreshold (k : ℚ) (vs : List ℚ) : ℝ :=
  specMean vs + (k : ℝ) * specSampleStd vs

/-- The observable outcome of one run: both thresholds, the
instantaneous mask and the final verdict. -/
structure RunResult where
  thrPfd : Option ℝ
  thrPow : Option (Option ℝ)
  mask : List Bool
  verdict : Bool

/-- Lift a rational-valued row to a real-valued row. -/
def rowR (r : String → Option ℚ) : String → Option ℝ :=
  fun c => Option.map (fun q : ℚ => (q : ℝ)) (r c)

/-- The whole script (script2.py lines 63-101) as a pure function.  The
file system is modelled as a partial map from paths to parsed tables
(`none` = missing file); `Except.error` models `sys.exit(1)` with the
printed message.  Mirrors the source's order: read baseline, read
candidate, resolve columns, fatal check for the PFD column, thresholds
from the baseline, band mask, instantaneous mask, hysteresis. -/
noncomputable def runScript (fs : String → Option (Table ℚ))
    (basePath dataPath : String) (k : ℚ) (fmin fmax : Option ℚ)
    (nconsec : Nat) : Except String RunResult :=
  match fs basePath with
  | none => Except.error ("ERROR: Archivo inexistente: " ++ basePath)
  | some dfBase =>
    match fs dataPath with
    | none => Except.error ("ERROR: Archivo inexistente: " ++ dataPath)
    | some dfData =>
      if !truthy (buscar_col dfBase "Power Flux Density") ||
          !truthy (buscar_col dfData "Power Flux Density") then
        Except.error "ERROR: No se encontró 'Power Flux Density' en uno de los archivos."
      else
        let tPfd : Option ℝ :=
          thrOf k (getCol dfBase ((buscar_col dfBase "Power Flux Density").getD ""))
        let tPow : Option (Option ℝ) := thrPowerOf dfBase dfData k
        let powCfg : Option (String × Option ℝ) :=
          match tPow with
          | none => none
          | some t => some ((buscar_col dfData "Total Spectrum Power").getD "", t)
        let imask : List Bool :=
          instantMask (dfData.rows.map rowR)
            ((buscar_col dfData "Power Flux Density").getD "") tPfd powCfg
            (buscar_col dfData "Frequency")
            (Option.map (fun q : ℚ => (q : ℝ)) fmin)
            (Option.map (fun q : ℚ => (q : ℝ)) fmax)
        Except.ok ⟨tPfd, tPow, imask, dronDetectado imask nconsec⟩

/-! ## Concrete tables and inputs used by witnesses -/

def rowsC10 : List (String → Option ℚ) := [fun _ => some 7]

def rowsC3 : List (String → Option ℚ) :=
  [fun c => if c = "Power Flux Density (dBW/m2)" then some 9 else none]

def tblC5 : Table ℚ :=
  ⟨["Center Frequency (MHz)"], [fun _ => some 2410, fun _ => some 2500]⟩

def tblC7 : Table ℚ := ⟨["Low Frequency (MHz)", "High Frequency (MHz)"], []⟩

def xsC2 : List (Option ℚ) := [some 12, some 8, some 10]

def xsC4 : List (Option ℚ) := [some 5]

def tblC6base : Table ℚ :=
  ⟨["Power Flux Density (dBW/m2)", "Total Spectrum Power (dBm)"], []⟩

def tblC6cand : Table ℚ := ⟨["Power Flux Density (dBW/m2)"], []⟩

def fsC8 : String → Option (Table ℚ) := fun _ => none

def tblC8 : Table ℚ := ⟨["Power Flux Density (dBW/m2)"], []⟩

def fsC8b : String → Option (Table ℚ) :=
  fun p => if p = "baseline.csv" then some tblC8 else none

def tblC9base : Table ℚ :=
  ⟨["Power Flux Density (dBW/m2)", "Total Spectrum Power (dBm)"], []⟩

def tblC9cand1 : Table ℚ :=
  ⟨["Power Flux Density (dBW/m2)", "Total Spectrum Power (dBm)"], []⟩

def tblC9cand2 : Table ℚ := ⟨["Power Flux Density (dBW/m2)"], []⟩

def fsC9 : String → Option (Table ℚ) := fun p =>
  if p = "base.csv" then some tblC9base
  else if p = "cand1.csv" then some tblC9cand1
  else if p = "cand2.csv" then some tblC9cand2
  else none

def resC9a : RunResult := ⟨none, some none, [], false⟩

def resC9b : RunResult := ⟨none, none, [], false⟩

/-! ## Helper lemmas -/

theorem countP_id_replicate (n : Nat) :
    (List.replicate n true).countP (fun b => b) = n := by
  induction n with
  | zero => simp
  | succ m ih => simp [List.replicate_succ, List.countP_cons, ih]

theorem window_all_true {mask : List Bool} {i n : Nat}
    (hi : i < mask.length) (hn : n ≤ i + 1)
    (hc : n ≤ ((mask.take (i + 1)).drop (i + 1 - n)).countP (fun b => b)) :
    mask = mask.take (i + 1 - n) ++ List.replicate n true ++ mask.drop (i + 1) := by
  set w := (mask.take (i + 1)).drop (i + 1 - n) with hw
  have hlen : w.length = n := by
    rw [hw, List.length_drop, List.length_take]
    omega
  have hcl : w.countP (fun b => b) = w.length := by
    have := List.countP_le_length (fun b => b) (l := w)
    omega
  have hrep : w = List.replicate n true := by
    rw [List.eq_replicate_iff]
    refine ⟨hlen, ?_⟩
    intro b hb
    have := (List.countP_eq_length).mp hcl b hb
    simpa using this
  have hsplit : mask.take (i + 1 - n) ++ w = mask.take (i + 1) := by
    have h := List.take_append_drop (i + 1 - n) (mask.take (i + 1))
    rw [List.take_take] at h
    rwa [Nat.min_def, if_pos (by omega)] at h
  calc mask = mask.take (i + 1) ++ mask.drop (i + 1) := (List.take_append_drop _ _).symm
    _ = (mask.take (i + 1 - n) ++ w) ++ mask.drop (i + 1) := by rw [hsplit]
    _ = mask.take (i + 1 - n) ++ List.replicate n true ++ mask.drop (i + 1) := by
        rw [hrep]

theorem window_of_run {mask : List Bool} {n : Nat} (pre post : List Bool)
    (hm : mask = pre ++ List.replicate n true ++ post) :
    ((mask.take (pre.length + n)).drop (pre.length)).countP (fun b => b) = n := by
  have htake : mask.take (pre.length + n) = pre ++ List.replicate n true := by
    rw [hm, List.take_append_eq_append_take,
      List.take_of_length_le (by simp),
      List.length_append, List.length_replicate, Nat.sub_self, List.take_zero,
      List.append_nil]
  rw [htake, List.drop_append_eq_append_drop, List.drop_of_length_le (le_refl _),
    Nat.sub_self, List.drop_zero, List.nil_append, countP_id_replicate]

theorem detect_iff_run (mask : List Bool) (n : Nat) (h1 : 1 ≤ n) :
    dronDetectado mask n = true ↔
      ∃ pre post, mask = pre ++ List.replicate n true ++ post := by
  rcases Nat.lt_or_ge 1 n with hn | hn
  · rw [dronDetectado, if_pos hn, List.any_eq_true]
    constructor
    · rintro ⟨i, hi, hp⟩
      rw [List.mem_range] at hi
      rw [Bool.and_eq_true, decide_eq_true_eq, decide_eq_true_eq] at hp
      exact ⟨mask.take (i + 1 - n), mask.drop (i + 1), window_all_true hi hp.1 hp.2⟩
    · rintro ⟨pre, post, hm⟩
      refine ⟨pre.length + n - 1, ?_, ?_⟩
      · rw [List.mem_range, hm]
        simp only [List.length_append, List.length_replicate]
        omega
      · rw [Bool.and_eq_true, decide_eq_true_eq, decide_eq_true_eq]
        refine ⟨by omega, ?_⟩
        rw [show pre.length + n - 1 + 1 = pre.length + n from by omega,
          show pre.length + n - n = pre.length from by omega,
          window_of_run pre post hm]
  · have hn1 : n = 1 := by omega
    subst hn1
    rw [dronDetectado, if_neg (by omega), List.any_eq_true]
    constructor
    · rintro ⟨b, hb, hbt⟩
      have : b = true := by simpa using hbt
      subst this
      rcases List.append_of_mem hb with ⟨s, t, hst⟩
      exact ⟨s, t, by simpa using hst⟩
    · rintro ⟨pre, post, hm⟩
      exact ⟨true, by simp [hm], rfl⟩

theorem detect_window_iff (mask : List Bool) (n : Nat) (h1 : 1 < n) :
    dronDetectado mask n = true ↔
      ∃ i, i < mask.length ∧ n ≤ i + 1 ∧
        ((mask.take (i + 1)).drop (i + 1 - n)).countP (fun b => b) = n := by
  rw [dronDetectado, if_pos h1, List.any_eq_true]
  constructor
  · rintro ⟨i, hi, hp⟩
    rw [List.mem_range] at hi
    rw [Bool.and_eq_true, decide_eq_true_eq, decide_eq_true_eq] at hp
    refine ⟨i, hi, hp.1, ?_⟩
    have hlen : ((mask.take (i + 1)).drop (i + 1 - n)).length = n := by
      rw [List.length_drop, List.length_take]
      omega
    have := List.countP_le_length (fun b => b)
      (l := (mask.take (i + 1)).drop (i + 1 - n))
    omega
  · rintro ⟨i, hi, hn, hc⟩
    refine ⟨i, List.mem_range.mpr hi, ?_⟩
    rw [Bool.and_eq_true, decide_eq_true_eq, decide_eq_true_eq]
    exact ⟨hn, by omega⟩

theorem detect_false_of_short (mask : List Bool) (n : Nat)
    (h : mask.length < n) : dronDetectado mask n = false := by
  rcases Nat.lt_or_ge 1 n with hn | hn
  · rw [dronDetectado, if_pos hn]
    rw [List.any_eq_false]
    intro i hi
    rw [List.mem_range] at hi
    simp only [Bool.and_eq_true, decide_eq_true_eq, not_and]
    intro hni
    omega
  · rw [dronDetectado, if_neg (by omega)]
    have h0 : mask.length = 0 := by omega
    rw [List.length_eq_zero.mp h0]
    rfl

theorem startsWith_iff (p l : List Char) :
    startsWith l p = true ↔ ∃ t, l = p ++ t := by
  induction p generalizing l with
  | nil =>
    simp [startsWith]
  | cons d ds ih =>
    cases l with
    | nil =>
      simp [startsWith]
    | cons c cs =>
      simp only [startsWith, Bool.and_eq_true, beq_iff_eq, ih, List.cons_append,
        List.cons.injEq]
      constructor
      · rintro ⟨rfl, t, rfl⟩
        exact ⟨t, rfl, rfl⟩
      · rintro ⟨t, rfl, rfl⟩
        exact ⟨rfl, t, rfl⟩

theorem containsSub_iff (l p : List Char) :
    containsSub l p = true ↔ ∃ u v, l = u ++ p ++ v := by
  induction l with
  | nil =>
    simp only [containsSub, List.isEmpty_iff]
    constructor
    · rintro rfl
      exact ⟨[], [], rfl⟩
    · rintro ⟨u, v, h⟩
      rcases List.append_eq_nil.mp h.symm with ⟨h1, h2⟩
      exact (List.append_eq_nil.mp h1).2
  | cons c cs ih =>
    simp only [containsSub, Bool.or_eq_true, startsWith_iff, ih]
    constructor
    · rintro (⟨t, ht⟩ | ⟨u, v, huv⟩)
      · exact ⟨[], t, by simp [ht]⟩
      · exact ⟨c :: u, v, by simp [huv]⟩
    · rintro ⟨u, v, huv⟩
      cases u with
      | nil =>
        exact Or.inl ⟨v, by simpa using huv⟩
      | cons a u' =>
        right
        rw [List.cons_append, List.cons_append, List.cons.injEq] at huv
        exact ⟨u', v, huv.2⟩

theorem find?_eq_some_iff {α : Type} (p : α → Bool) (l : List α) (c : α) :
    l.find? p = some c ↔
      ∃ pre post, l = pre ++ c :: post ∧ p c = true ∧ ∀ x ∈ pre, p x = false := by
  induction l with
  | nil =>
    simp only [List.find?_nil]
    constructor
    · intro h; cases h
    · rintro ⟨pre, post, h, _⟩
      exact absurd h (by simp)
  | cons a t ih =>
    rw [List.find?_cons]
    cases hp : p a with
    | true =>
      simp only []
      constructor
      · rintro h
        cases h
        exact ⟨[], t, rfl, hp, by simp⟩
      · rintro ⟨pre, post, hl, hc, hpre⟩
        cases pre with
        | nil =>
          simp only [List.nil_append] at hl
          cases hl
          rfl
        | cons b pre' =>
          rw [List.cons_append, List.cons.injEq] at hl
          cases hl.1
          exact absurd hp (by simp [hpre a (by simp)])
    | false =>
      simp only []
      rw [ih]
      constructor
      · rintro ⟨pre, post, hl, hc, hpre⟩
        refine ⟨a :: pre, post, by simp [hl], hc, ?_⟩
        intro x hx
        rcases List.mem_cons.mp hx with rfl | hx
        · exact hp
        · exact hpre x hx
      · rintro ⟨pre, post, hl, hc, hpre⟩
        cases pre with
        | nil =>
          simp only [List.nil_append] at hl
          cases hl
          exact absurd hp (by simp [hc])
        | cons b pre' =>
          rw [List.cons_append, List.cons.injEq] at hl
          cases hl.1
          exact ⟨pre', post, hl.2, hc, fun x hx => hpre x (by simp [hx])⟩

theorem optGT_iff {α : Type} [LinearOrder α] (v t : Option α) :
    optGT v t = true ↔ ∃ a b, v = some a ∧ t = some b ∧ b < a := by
  cases v with
  | none => simp [optGT]
  | some a =>
    cases t with
    | none => simp [optGT]
    | some b => simp [optGT]

theorem geScalar_iff {α : Type} [LinearOrder α] (v : Option α) (a : α) :
    geScalar v a = true ↔ ∃ x, v = some x ∧ a ≤ x := by
  cases v with
  | none => simp [geScalar]
  | some x => simp [geScalar]

theorem leScalar_iff {α : Type} [LinearOrder α] (v : Option α) (b : α) :
    leScalar v b = true ↔ ∃ x, v = some x ∧ x ≤ b := by
  cases v with
  | none => simp [leScalar]
  | some x => simp [leScalar]

theorem getD_map {α β : Type} (f : α → β) (l : List α) (i : Nat) (d : β)
    (hi : i < l.length) : (l.map f).getD i d = f l[i] := by
  rw [List.getD_eq_getElem _ _ (by simpa using hi), List.getElem_map]

/-- A column name resolved by a nonempty keyword is itself nonempty,
hence truthy. -/
theorem buscar_col_truthy {α : Type} {df : Table α} {key : String} {c : String}
    (h : buscar_col df key = some c) (hk : lowerChars key ≠ []) :
    c.isEmpty = false := by
  have hp := List.find?_some h
  rcases (containsSub_iff _ _).mp hp with ⟨u, v, huv⟩
  have hc : lowerChars c ≠ [] := by
    rw [huv]
    intro hnil
    rcases List.append_eq_nil.mp hnil with ⟨h1, _⟩
    exact hk (List.append_eq_nil.mp h1).2
  cases hE : c.isEmpty with
  | false => rfl
  | true =>
    exfalso
    apply hc
    have : c = "" := (String.isEmpty_iff c).mp hE
    rw [this]
    rfl

/-! ## Claim theorems -/

/-- Claim C1: For every instantaneous mask and every `n_consec >= 1`, the
detector's verdict is true iff the mask contains a run of at least
`n_consec` consecutive true values; when `n_consec <= 1` the verdict is
the logical OR of the mask, and when `n_consec > 1` the verdict is true
iff some trailing window of exactly `n_consec` rows (defined only once
`n_consec` samples exist) has every sample true, i.e. its true-count
(the rolling sum of the 0/1 mask) equals `n_consec`. -/
theorem claim_C1_hysteresis (mask : List Bool) (n : Nat) (h1 : 1 ≤ n) :
    (dronDetectado mask n = true ↔
      ∃ pre post, mask = pre ++ List.replicate n true ++ post) ∧
    (n ≤ 1 → dronDetectado mask n = mask.any (fun b => b)) ∧
    (1 < n → (dronDetectado mask n = true ↔
      ∃ i, i < mask.length ∧ n ≤ i + 1 ∧
        ((mask.take (i + 1)).drop (i + 1 - n)).countP (fun b => b) = n)) := by
  refine ⟨detect_iff_run mask n h1, ?_, fun hn => detect_window_iff mask n hn⟩
  intro hn
  rw [dronDetectado, if_neg (by omega)]

theorem claim_C1_hysteresis_witness :
    (1 ≤ 3 ∧
      (dronDetectado [true, true, false, true, true, true] 3 = true ↔
        ∃ pre post, [true, true, false, true, true, true] =
          pre ++ List.replicate 3 true ++ post)) ∧
    dronDetectado [true, true, false, true, true, true] 3 = true ∧
    dronDetectado [true, true, false, true, true, false] 3 = false :=
  ⟨⟨by decide, (claim_C1_hysteresis [true, true, false, true, true, true] 3
      (by decide)).1⟩, by decide, by decide⟩

/-- Claim C10: When `n_consec` exceeds the number of candidate rows the
verdict is false whatever the mask values are (no full window of
`n_consec` samples exists); the empty candidate table yields a false
verdict for every `n_consec >= 1`. -/
theorem claim_C10_insufficient_rows {α : Type} [LinearOrder α]
    (rows : List (String → Option α)) (pfdCol : String) (thrPfd : Option α)
    (powCfg : Option (String × Option α)) (freqCol : Option String)
    (fmin fmax : Option α) (n : Nat) (hn : rows.length < n) :
    dronDetectado (instantMask rows pfdCol thrPfd powCfg freqCol fmin fmax) n
        = false ∧
    (rows = [] → ∀ m, 1 ≤ m →
      dronDetectado (instantMask rows pfdCol thrPfd powCfg freqCol fmin fmax) m
        = false) := by
  constructor
  · refine detect_false_of_short _ _ ?_
    rw [instantMask, List.length_map]
    exact hn
  · rintro rfl m hm
    refine detect_false_of_short _ _ ?_
    rw [instantMask, List.length_map]
    simpa using hm


theorem claim_C10_insufficient_rows_witness :
    rowsC10.length < 5 ∧
    dronDetectado
      (instantMask rowsC10 "Power Flux Density (dBW/m2)" (some 0) none none
        none none) 5 = false :=
  ⟨by decide,
    (claim_C10_insufficient_rows rowsC10 "Power Flux Density (dBW/m2)" (some 0)
      none none none none 5 (by decide)).1⟩

/-- Claim C3: A row's instantaneous mask entry is true iff its PFD value is
strictly greater than the PFD threshold, the row is in-band, and either
the power criterion is disabled or its power value is strictly greater
than the power threshold; both numeric comparisons are strict. -/
theorem claim_C3_instant_mask {α : Type} [LinearOrder α]
    (rows : List (String → Option α)) (pfdCol : String) (thrPfd : Option α)
    (powCfg : Option (String × Option α)) (freqCol : Option String)
    (fmin fmax : Option α) (i : Nat) (hi : i < rows.length) :
    (instantMask rows pfdCol thrPfd powCfg freqCol fmin fmax).getD i false
        = true ↔
      ((∃ a b, (rows.getD i (fun _ => none)) pfdCol = some a ∧
          thrPfd = some b ∧ b < a) ∧
        bandRow (rows.getD i (fun _ => none)) freqCol fmin fmax = true ∧
        (powCfg = none ∨
          ∃ pc tp x y, powCfg = some (pc, tp) ∧
            (rows.getD i (fun _ => none)) pc = some x ∧ tp = some y ∧ y < x)) := by
  rw [instantMask, getD_map _ _ _ _ hi,
    List.getD_eq_getElem _ _ hi, instantRow.eq_def]
  cases powCfg with
  | none =>
    simp only [Bool.and_true, Bool.and_eq_true, optGT_iff]
    constructor
    · rintro ⟨⟨a, b, ha, hb, hab⟩, hband⟩
      exact ⟨⟨a, b, ha, hb, hab⟩, hband, Or.inl trivial⟩
    · rintro ⟨⟨a, b, ha, hb, hab⟩, hband, _⟩
      exact ⟨⟨a, b, ha, hb, hab⟩, hband⟩
  | some p =>
    obtain ⟨pc, tp⟩ := p
    simp only [Bool.and_eq_true, optGT_iff]
    constructor
    · rintro ⟨⟨hpfd, hband⟩, x, y, hx, hy, hlt⟩
      exact ⟨hpfd, hband, Or.inr ⟨pc, tp, x, y, rfl, hx, hy, hlt⟩⟩
    · rintro ⟨hpfd, hband, h3 | ⟨pc', tp', x, y, heq, hx, hy, hlt⟩⟩
      · exact Option.noConfusion h3
      · rw [Option.some.injEq, Prod.mk.injEq] at heq
        obtain ⟨rfl, rfl⟩ := heq
        exact ⟨⟨hpfd, hband⟩, x, y, hx, hy, hlt⟩


theorem claim_C3_instant_mask_witness :
    0 < rowsC3.length ∧
    ((instantMask rowsC3 "Power Flux Density (dBW/m2)" (some 5) none none
        none none).getD 0 false = true ↔
      ((∃ a b, (rowsC3.getD 0 (fun _ => none)) "Power Flux Density (dBW/m2)"
            = some a ∧ (some (5 : ℚ) : Option ℚ) = some b ∧ b < a) ∧
        bandRow (rowsC3.getD 0 (fun _ => none)) none none none = true ∧
        ((none : Option (String × Option ℚ)) = none ∨
          ∃ pc tp x y, (none : Option (String × Option ℚ)) = some (pc, tp) ∧
            (rowsC3.getD 0 (fun _ => none)) pc = some x ∧ tp = some y ∧
            y < x))) ∧
    (instantMask rowsC3 "Power Flux Density (dBW/m2)" (some 5) none none
        none none).getD 0 false = true :=
  ⟨by decide,
    claim_C3_instant_mask rowsC3 "Power Flux Density (dBW/m2)" (some 5) none
      none none none 0 (by decide),
    by decide⟩

theorem bandRow_inactive {α : Type} [LinearOrder α] (r : String → Option α)
    (fc : Option String) (fmin fmax : Option α)
    (h : fc = none ∨ fmin = none ∨ fmax = none) :
    bandRow r fc fmin fmax = true := by
  cases fc with
  | none => cases fmin <;> cases fmax <;> rfl
  | some c =>
    cases fmin with
    | none => cases fmax <;> rfl
    | some a =>
      cases fmax with
      | none => rfl
      | some b => rcases h with h | h | h <;> exact Option.noConfusion h

/-- Claim C5: The band filter is active only when a frequency column was
resolved and both bounds are configured (both-or-neither); when active a
row passes iff `f_min <= freq <= f_max`, inclusive at both ends; when
inactive every row passes. -/
theorem claim_C5_band_filter (cand : Table ℚ) (fmin fmax : Option ℚ) (i : Nat)
    (hi : i < cand.rows.length) :
    (∀ c a b, buscar_col cand "Frequency" = some c → fmin = some a →
      fmax = some b →
      ((bandMask cand.rows (buscar_col cand "Frequency") fmin fmax).getD
          i false = true ↔
        ∃ x, (cand.rows.getD i (fun _ => none)) c = some x ∧ a ≤ x ∧ x ≤ b)) ∧
    ((buscar_col cand "Frequency" = none ∨ fmin = none ∨ fmax = none) →
      (bandMask cand.rows (buscar_col cand "Frequency") fmin fmax).getD
        i false = true) := by
  have hmask : ∀ (fc : Option String) (fmin' fmax' : Option ℚ),
      (bandMask cand.rows fc fmin' fmax').getD i false
        = bandRow (cand.rows.getD i (fun _ => none)) fc fmin' fmax' := by
    intro fc fmin' fmax'
    rw [bandMask, getD_map _ _ _ _ hi, List.getD_eq_getElem _ _ hi]
  constructor
  · rintro c a b hc rfl rfl
    rw [hmask, hc]
    have hne : c.isEmpty = false := buscar_col_truthy hc (by decide)
    rw [bandRow]
    rw [if_neg (by simp [hne])]
    rw [Bool.and_eq_true, geScalar_iff, leScalar_iff]
    constructor
    · rintro ⟨⟨x, hx, hax⟩, ⟨y, hy, hyb⟩⟩
      rw [hx, Option.some.injEq] at hy
      subst hy
      exact ⟨x, hx, hax, hyb⟩
    · rintro ⟨x, hx, hax, hxb⟩
      exact ⟨⟨x, hx, hax⟩, ⟨x, hx, hxb⟩⟩
  · intro h
    rw [hmask]
    exact bandRow_inactive _ _ _ _ h


theorem claim_C5_band_filter_witness :
    (0 < tblC5.rows.length ∧
      buscar_col tblC5 "Frequency" = some "Center Frequency (MHz)" ∧
      ((bandMask tblC5.rows (buscar_col tblC5 "Frequency") (some 2400)
          (some 2483)).getD 0 false = true ↔
        ∃ x, (tblC5.rows.getD 0 (fun _ => none)) "Center Frequency (MHz)"
            = some x ∧ 2400 ≤ x ∧ x ≤ 2483)) ∧
    (bandMask tblC5.rows (buscar_col tblC5 "Frequency") (some 2400)
      (some 2483)).getD 0 false = true ∧
    (bandMask tblC5.rows (buscar_col tblC5 "Frequency") (some 2400)
      (some 2483)).getD 1 false = false :=
  ⟨⟨by decide, by decide,
    (claim_C5_band_filter tblC5 (some 2400) (some 2483) 0 (by decide)).1
      "Center Frequency (MHz)" 2400 2483 (by decide) rfl rfl⟩,
    by decide, by decide⟩

/-- Claim C7: The column resolver returns the first column, in declared
order, containing the keyword as a case-insensitive substring, and
`none` when no column matches; with several matches the first wins and
no error is raised. -/
theorem claim_C7_resolver {α : Type} (df : Table α) (key : String) :
    (∀ c, buscar_col df key = some c ↔
      ∃ pre post, df.cols = pre ++ c :: post ∧
        containsSub (lowerChars c) (lowerChars key) = true ∧
        ∀ x ∈ pre, containsSub (lowerChars x) (lowerChars key) = false) ∧
    (buscar_col df key = none ↔
      ∀ x ∈ df.cols, containsSub (lowerChars x) (lowerChars key) = false) ∧
    (∀ l p : List Char, containsSub l p = true ↔ ∃ u v, l = u ++ p ++ v) := by
  refine ⟨fun c => find?_eq_some_iff _ _ _, ?_, containsSub_iff⟩
  rw [buscar_col, List.find?_eq_none]
  constructor
  · intro h x hx
    simpa using h x hx
  · intro h x hx
    simp [h x hx]


theorem claim_C7_resolver_witness :
    buscar_col tblC7 "Frequency" = some "Low Frequency (MHz)" ∧
    (buscar_col tblC7 "Frequency" = some "Low Frequency (MHz)" ↔
      ∃ pre post, tblC7.cols = pre ++ "Low Frequency (MHz)" :: post ∧
        containsSub (lowerChars "Low Frequency (MHz)")
          (lowerChars "Frequency") = true ∧
        ∀ x ∈ pre, containsSub (lowerChars x) (lowerChars "Frequency")
          = false) :=
  ⟨by decide, (claim_C7_resolver tblC7 "Frequency").1 _⟩

theorem ratCast_list_sum (vs : List ℚ) :
    ((vs.sum : ℚ) : ℝ) = (vs.map (fun x : ℚ => (x : ℝ))).sum := by
  induction vs with
  | nil => simp
  | cons a t ih => rw [List.sum_cons, List.map_cons, List.sum_cons, Rat.cast_add, ih]

/-- Claim C2: The threshold is the arithmetic mean of the baseline column
plus `k` times its sample standard deviation (`N-1` denominator),
computed over the column's numeric values only; with mean 10, sample
standard deviation 2 and `k = 3` the threshold is exactly 16. -/
theorem claim_C2_threshold (xs : List (Option ℚ)) (k : ℚ)
    (h2 : 2 ≤ (numVals xs).length) :
    thrOf k xs = some (specThreshold k (numVals xs)) ∧
    (colMean xs = some 10 → colStd xs = some 2 → thrOf 3 xs = some 16) := by
  constructor
  · have hm : colMean xs
        = some ((numVals xs).sum / ((numVals xs).length : ℚ)) := by
      rw [colMean, if_neg (by omega)]
    have hv : colVar xs = some ((((numVals xs).map
        (fun x => (x - (numVals xs).sum / ((numVals xs).length : ℚ)) ^ 2)).sum) /
        (((numVals xs).length : ℚ) - 1)) := by
      rw [colVar, if_neg (by omega)]
    have hs : colStd xs = some (Real.sqrt ((((((numVals xs).map
        (fun x => (x - (numVals xs).sum / ((numVals xs).length : ℚ)) ^ 2)).sum) /
        (((numVals xs).length : ℚ) - 1) : ℚ)) : ℝ)) := by
      rw [colStd, hv, Option.map_some']
    rw [thrOf.eq_def, hm, hs]
    refine congrArg some ?_
    have hmu : specMean (numVals xs)
        = (((numVals xs).sum / ((numVals xs).length : ℚ) : ℚ) : ℝ) := by
      rw [specMean, ← ratCast_list_sum]
      push_cast
      ring
    have hsig : specSampleStd (numVals xs)
        = Real.sqrt ((((((numVals xs).map
            (fun x => (x - (numVals xs).sum / ((numVals xs).length : ℚ)) ^ 2)).sum) /
            (((numVals xs).length : ℚ) - 1) : ℚ)) : ℝ) := by
      rw [specSampleStd]
      congr 1
      rw [Rat.cast_div]
      congr 1
      · rw [ratCast_list_sum, List.map_map]
        refine congrArg List.sum (List.map_congr_left (fun x _ => ?_))
        simp only [Function.comp]
        rw [hmu]
        push_cast
        ring
      · push_cast
        ring
    rw [specThreshold, hmu, hsig]
  · intro hmean hstd
    rw [thrOf.eq_def, hmean, hstd]
    norm_num


theorem claim_C2_threshold_witness :
    2 ≤ (numVals xsC2).length ∧
    thrOf 3 xsC2 = some (specThreshold 3 (numVals xsC2)) ∧
    thrOf 3 xsC2 = some 16 := by
  have hmean : colMean xsC2 = some 10 := by
    norm_num [colMean, numVals, xsC2, List.filterMap_cons]
  have hstd : colStd xsC2 = some 2 := by
    have h4 : colVar xsC2 = some 4 := by
      norm_num [colVar, numVals, xsC2, List.filterMap_cons]
    rw [colStd, h4, Option.map_some']
    have h42 : ((4 : ℚ) : ℝ) = 2 ^ 2 := by norm_num
    rw [h42, Real.sqrt_sq (by norm_num : (0 : ℝ) ≤ 2)]
  have h2 : 2 ≤ (numVals xsC2).length := by decide
  exact ⟨h2, (claim_C2_threshold xsC2 3 h2).1,
    (claim_C2_threshold xsC2 3 h2).2 hmean hstd⟩

/-- Claim C4: With insufficient baseline data (zero or one numeric value)
the threshold is NaN (`none`) rather than a default, every comparison
of a row value against that undefined threshold is false, and every
comparison whose row value is NaN is false; all detector functions are
total, so no exception is possible. -/
theorem claim_C4_nan (xs : List (Option ℚ)) (k : ℚ)
    (h : (numVals xs).length ≤ 1) :
    thrOf k xs = none ∧
    (∀ v : Option ℝ, optGT v (thrOf k xs) = false) ∧
    (∀ t : Option ℝ, optGT (none : Option ℝ) t = false) ∧
    (∀ t : Option ℚ, optGT (none : Option ℚ) t = false) := by
  have hv : colVar xs = none := by rw [colVar, if_pos h]
  have hs : colStd xs = none := by rw [colStd, hv]; rfl
  have ht : thrOf k xs = none := by
    rw [thrOf.eq_def, hs]
    cases colMean xs <;> rfl
  refine ⟨ht, ?_, ?_, ?_⟩
  · intro v
    rw [ht]
    cases v <;> rfl
  · intro t
    cases t <;> rfl
  · intro t
    cases t <;> rfl


theorem claim_C4_nan_witness :
    (numVals xsC4).length ≤ 1 ∧ thrOf 3 xsC4 = none ∧
      optGT (some (1 : ℝ)) (thrOf 3 xsC4) = false :=
  ⟨by decide, (claim_C4_nan xsC4 3 (by decide)).1,
    (claim_C4_nan xsC4 3 (by decide)).2.1 (some 1)⟩

theorem truthy_iff_resolved (df : Table ℚ) :
    truthy (buscar_col df "Total Spectrum Power") = true ↔
      buscar_col df "Total Spectrum Power" ≠ none := by
  cases hb : buscar_col df "Total Spectrum Power" with
  | none => simp [truthy]
  | some c =>
    have hne := buscar_col_truthy hb (by decide)
    simp [truthy, hne]

/-- Claim C6: The power criterion is evaluated iff a Total Spectrum Power
column resolves in both the baseline and the candidate table; when it
resolves only in the baseline (absent in candidate) the criterion is
disabled and the instantaneous mask reduces to the PFD-and-band
formula, so the verdict is determined by PFD and band alone. -/
theorem claim_C6_power_criterion (base cand : Table ℚ) (k : ℚ) :
    (thrPowerOf base cand k ≠ none ↔
      (buscar_col base "Total Spectrum Power" ≠ none ∧
        buscar_col cand "Total Spectrum Power" ≠ none)) ∧
    (buscar_col cand "Total Spectrum Power" = none →
      thrPowerOf base cand k = none) ∧
    (∀ (α : Type) [LinearOrder α] (rows : List (String → Option α))
        (pfdCol : String) (thrPfd : Option α) (freqCol : Option String)
        (fmin fmax : Option α),
      instantMask rows pfdCol thrPfd none freqCol fmin fmax
        = rows.map (fun r => optGT (r pfdCol) thrPfd &&
            bandRow r freqCol fmin fmax)) := by
  refine ⟨?_, ?_, ?_⟩
  · have hiff : thrPowerOf base cand k ≠ none ↔
        (truthy (buscar_col base "Total Spectrum Power") &&
          truthy (buscar_col cand "Total Spectrum Power")) = true := by
      rw [thrPowerOf]
      cases h : (truthy (buscar_col base "Total Spectrum Power") &&
          truthy (buscar_col cand "Total Spectrum Power")) with
      | true => simp [h]
      | false => simp [h]
    rw [hiff, Bool.and_eq_true, truthy_iff_resolved base,
      truthy_iff_resolved cand]
  · intro hc
    rw [thrPowerOf, hc]
    simp [truthy]
  · intro α inst rows pfdCol thrPfd freqCol fmin fmax
    simp only [instantMask, instantRow, Bool.and_true]



theorem claim_C6_power_criterion_witness :
    buscar_col tblC6cand "Total Spectrum Power" = none ∧
    thrPowerOf tblC6base tblC6cand 3 = none ∧
    buscar_col tblC6base "Total Spectrum Power" ≠ none :=
  ⟨by decide,
    (claim_C6_power_criterion tblC6base tblC6cand 3).2.1 (by decide),
    by decide⟩

/-- Claim C8: A fatal configuration error (a missing input file — baseline
or candidate — or the PFD column unresolvable in either table) makes the
run abort with a failure signal carrying no thresholds and no verdict;
when the baseline file is missing, the result does not depend on the
candidate path or its contents at all (the candidate file is never
read), and when only the candidate file is missing the run aborts
likewise before any threshold computation. -/
theorem claim_C8_fatal (fs : String → Option (Table ℚ))
    (basePath dataPath : String) (k : ℚ) (fmin fmax : Option ℚ) (n : Nat) :
    (fs basePath = none →
      runScript fs basePath dataPath k fmin fmax n
          = Except.error ("ERROR: Archivo inexistente: " ++ basePath) ∧
      (∀ (fs' : String → Option (Table ℚ)) (dataPath' : String),
        fs' basePath = none →
        runScript fs basePath dataPath k fmin fmax n
          = runScript fs' basePath dataPath' k fmin fmax n)) ∧
    (∀ dfBase, fs basePath = some dfBase → fs dataPath = none →
      runScript fs basePath dataPath k fmin fmax n
        = Except.error ("ERROR: Archivo inexistente: " ++ dataPath)) ∧
    (∀ dfBase dfData, fs basePath = some dfBase → fs dataPath = some dfData →
      (buscar_col dfBase "Power Flux Density" = none ∨
        buscar_col dfData "Power Flux Density" = none) →
      runScript fs basePath dataPath k fmin fmax n
        = Except.error
            "ERROR: No se encontró 'Power Flux Density' en uno de los archivos.") := by
  refine ⟨?_, ?_, ?_⟩
  · intro hb
    have h1 : runScript fs basePath dataPath k fmin fmax n
        = Except.error ("ERROR: Archivo inexistente: " ++ basePath) := by
      rw [runScript.eq_def, hb]
    refine ⟨h1, ?_⟩
    intro fs' dp' hb'
    rw [h1, runScript.eq_def, hb']
  · intro dfB hbs hd
    simp only [runScript.eq_def, hbs, hd]
  · intro dfB dfD hbs hds hpfd
    have hcond : (!truthy (buscar_col dfB "Power Flux Density") ||
        !truthy (buscar_col dfD "Power Flux Density")) = true := by
      rcases hpfd with h | h <;> rw [h] <;> simp [truthy]
    simp only [runScript.eq_def, hbs, hds, hcond]
    rfl


theorem claim_C8_fatal_witness :
    (fsC8 "baseline.csv" = none ∧
      runScript fsC8 "baseline.csv" "data.csv" 3 none none 1
        = Except.error ("ERROR: Archivo inexistente: " ++ "baseline.csv")) ∧
    (fsC8b "baseline.csv" = some tblC8 ∧ fsC8b "data.csv" = none ∧
      runScript fsC8b "baseline.csv" "data.csv" 3 none none 1
        = Except.error ("ERROR: Archivo inexistente: " ++ "data.csv")) :=
  ⟨⟨rfl,
    ((claim_C8_fatal fsC8 "baseline.csv" "data.csv" 3 none none 1).1 rfl).1⟩,
   ⟨rfl, rfl,
    (claim_C8_fatal fsC8b "baseline.csv" "data.csv" 3 none none 1).2.1
      tblC8 rfl rfl⟩⟩





/-- Claim C9 counterexample: two runs over the same baseline and the same
`k = 3` whose candidate tables differ only in the presence of the power
column produce different power thresholds (`some none`, i.e. an enabled
NaN threshold, versus `none`, i.e. the criterion disabled), so the
computed thresholds are not identical across arbitrary candidates. -/
theorem claim_C9_counterexample :
    Except.map (fun r : RunResult => r.thrPow)
        (runScript fsC9 "base.csv" "cand1.csv" 3 none none 1)
      = Except.ok (some none) ∧
    Except.map (fun r : RunResult => r.thrPow)
        (runScript fsC9 "base.csv" "cand2.csv" 3 none none 1)
      = Except.ok none ∧
    some (none : Option ℝ) ≠ (none : Option (Option ℝ)) :=
  ⟨rfl, rfl, by simp⟩

theorem thrPowerOf_some {base cand : Table ℚ} {k : ℚ} {t : Option ℝ}
    (h : thrPowerOf base cand k = some t) :
    t = thrOf k
      (getCol base ((buscar_col base "Total Spectrum Power").getD "")) := by
  rw [thrPowerOf] at h
  split at h
  · exact (Option.some.injEq _ _ ▸ h.symm)
  · exact Option.noConfusion h

/-- Claim C9 amended: the PFD threshold is a function of the baseline table
and `k` only; the power threshold's numeric value, whenever the power
criterion is enabled in both runs, likewise depends only on the
baseline and `k`.  Candidate tables can influence only whether the
power criterion is enabled (through column resolution), never a
threshold's value. -/
theorem claim_C9_thresholds_baseline_only
    (fs1 fs2 : String → Option (Table ℚ)) (bp1 dp1 bp2 dp2 : String)
    (k : ℚ) (fmin1 fmax1 fmin2 fmax2 : Option ℚ) (n1 n2 : Nat)
    (r1 r2 : RunResult)
    (h1 : runScript fs1 bp1 dp1 k fmin1 fmax1 n1 = Except.ok r1)
    (h2 : runScript fs2 bp2 dp2 k fmin2 fmax2 n2 = Except.ok r2)
    (hb : fs1 bp1 = fs2 bp2) :
    r1.thrPfd = r2.thrPfd ∧
    (∀ t1 t2, r1.thrPow = some t1 → r2.thrPow = some t2 → t1 = t2) := by
  rw [runScript.eq_def] at h1 h2
  cases hfb1 : fs1 bp1 with
  | none =>
    rw [hfb1] at h1
    exact absurd h1 (by simp)
  | some dfB =>
    rw [hfb1] at hb
    rw [hfb1] at h1
    rw [← hb] at h2
    cases hfd1 : fs1 dp1 with
    | none =>
      rw [hfd1] at h1
      exact absurd h1 (by simp)
    | some dfD1 =>
      rw [hfd1] at h1
      cases hfd2 : fs2 dp2 with
      | none =>
        rw [hfd2] at h2
        exact absurd h2 (by simp)
      | some dfD2 =>
        rw [hfd2] at h2
        simp only [] at h1 h2
        split at h1
        · exact absurd h1 (by simp)
        · split at h2
          · exact absurd h2 (by simp)
          · rw [Except.ok.injEq] at h1 h2
            subst h1
            subst h2
            refine ⟨rfl, ?_⟩
            intro t1 t2 ht1 ht2
            simp only [] at ht1 ht2
            rw [thrPowerOf_some ht1, thrPowerOf_some ht2]



theorem claim_C9_thresholds_baseline_only_witness :
    runScript fsC9 "base.csv" "cand1.csv" 3 none none 1 = Except.ok resC9a ∧
    runScript fsC9 "base.csv" "cand2.csv" 3 none none 1 = Except.ok resC9b ∧
    fsC9 "base.csv" = fsC9 "base.csv" ∧
    (resC9a.thrPfd = resC9b.thrPfd ∧
      (∀ t1 t2, resC9a.thrPow = some t1 → resC9b.thrPow = some t2 →
        t1 = t2)) :=
  ⟨rfl, rfl, rfl,
    claim_C9_thresholds_baseline_only fsC9 fsC9 "base.csv" "cand1.csv"
      "base.csv" "cand2.csv" 3 none none none none 1 1 resC9a resC9b
      rfl rfl rfl⟩
